import Mathlib

/-!
Verification of the ChromaDB CLI wrapper (chroma_cli.py).

We shallowly embed the CLI's pure logic (filter construction, result
formatting, base64 and UTF-8 transport codec, metadata decoding) and its
stateful command dispatch over a model of the external Chroma store, and
prove the specified properties about the embedding.
-/

set_option maxHeartbeats 1000000
set_option maxRecDepth 8192

/-- JSON values as printed by json.dumps and consumed by json.loads.
Numbers are integers (the CLI only ever parses integer arguments and the
metadata scalars exercised are integers); floating point appears only as
the pass-through distance field. -/
inductive JsonVal where
  | null : JsonVal
  | bool (b : Bool) : JsonVal
  | num (n : Int) : JsonVal
  | fnum (x : Float) : JsonVal
  | str (s : String) : JsonVal
  | arr (elems : List JsonVal) : JsonVal
  | obj (fields : List (String × JsonVal)) : JsonVal

/-- Look up a field of a JSON object (first occurrence), as Python dict
access on the dicts the CLI builds. -/
def JsonVal.getField (v : JsonVal) (key : String) : Option JsonVal :=
  match v with
  | .obj fields =>
    match fields.find? (fun p => p.1 == key) with
    | some p => some p.2
    | none => none
  | _ => none

/-- Whether a JSON object has a field with the given key. -/
def JsonVal.hasField (v : JsonVal) (key : String) : Bool :=
  (v.getField key).isSome

/-- The error object the CLI prints: a JSON object with a single error
field holding the message. -/
def errObj (msg : String) : JsonVal :=
  JsonVal.obj [("error", JsonVal.str msg)]

/-! ## Filter Builder

Embeds chroma_cli.py lines 54-67 (query_memories): collect one atomic
condition per supplied constraint (importance $gte first, then
memory_tier equality), then return the single condition unwrapped, an
$and of all conditions, or no filter at all. -/

/-- The atomic importance predicate appended at line 59. -/
def importanceCond (v : Int) : JsonVal :=
  JsonVal.obj [("importance", JsonVal.obj [("$gte", JsonVal.num v)])]

/-- The atomic memory-tier predicate appended at line 62. -/
def tierCond (t : Int) : JsonVal :=
  JsonVal.obj [("memory_tier", JsonVal.num t)]

/-- The where-filter construction of query_memories (lines 55-67):
conditions are collected in order importance-then-tier; one condition is
returned bare, two or more are wrapped in an $and object, zero yields no
filter (where_filter stays None). -/
def query_where_filter (min_importance memory_tier : Option Int) : Option JsonVal :=
  let conditions : List JsonVal :=
    (match min_importance with
     | some v => [importanceCond v]
     | none => []) ++
    (match memory_tier with
     | some t => [tierCond t]
     | none => [])
  if conditions.length == 1 then conditions.head?
  else if conditions.length > 1 then
    some (JsonVal.obj [("$and", JsonVal.arr conditions)])
  else none

/-! ## Result Formatter

Embeds chroma_cli.py lines 75-91 (query_memories result shaping). The raw
Chroma query response is columnar: for each field, an outer list with one
inner list per query text (the CLI sends exactly one query text). A field
excluded from the response is represented as None; for metadatas, ids and
distances the code uses dict.get with default [[]] before indexing [0],
while documents is accessed directly and tested for truthiness. -/

/-- The columnar store response of collection.query. A None field models
the key being absent from the response dict (the code's .get default
applies), or for documents a None value (falsy, like an empty list). -/
structure RawQueryResults where
  ids : Option (List (List String))
  documents : Option (List (List String))
  metadatas : Option (List (List JsonVal))
  distances : Option (List (List Float))

/-- One formatted memory record (the dict appended at lines 84-89). -/
structure MemoryRec where
  id : String
  document : String
  metadata : JsonVal
  distance : Float

/-- The result-formatting loop of query_memories (lines 76-89). Python
list indexing with an explicit bound check (ids[i] if i < len(ids) else
"") becomes List.getD with the same default; the unconditioned [0] on the
outer lists is partial (IndexError when the outer list is empty), so the
result is an Option, none meaning an uncaught exception. -/
def formatMemories (results : RawQueryResults) : Option (List MemoryRec) :=
  match results.documents with
  | none => some []
  | some [] => some []
  | some (docs :: _) => do
    let metas ← (results.metadatas.getD [[]]).head?
    let ids ← (results.ids.getD [[]]).head?
    let distances ← (results.distances.getD [[]]).head?
    some ((List.range docs.length).map fun i =>
      { id := ids.getD i ""
        document := docs.getD i ""
        metadata := metas.getD i (JsonVal.obj [])
        distance := distances.getD i 0.0 })

/-- The inner documents list the loop ranges over (documents[0], or [] in
the branches that skip the loop). -/
def innerDocs (results : RawQueryResults) : List String :=
  ((results.documents.getD []).headD [])

/-- The inner ids list (ids[0] after the .get default). -/
def innerIds (results : RawQueryResults) : List String :=
  ((results.ids.getD [[]]).headD [])

/-- The inner metadatas list. -/
def innerMetas (results : RawQueryResults) : List JsonVal :=
  ((results.metadatas.getD [[]]).headD [])

/-- The inner distances list. -/
def innerDists (results : RawQueryResults) : List Float :=
  ((results.distances.getD [[]]).headD [])

/-- A response is well-shaped when each present optional outer list is
nonempty (one entry per query text; the CLI always sends one query), so
the unconditioned [0] indexing cannot fail. An absent field defaults to
[[]], which is nonempty. -/
def WellShaped (results : RawQueryResults) : Prop :=
  (results.ids.getD [[]]) ≠ [] ∧
  (results.metadatas.getD [[]]) ≠ [] ∧
  (results.distances.getD [[]]) ≠ []

theorem formatMemories_eq_of_wellShaped (r : RawQueryResults) (h : WellShaped r) :
    formatMemories r =
      some ((List.range (innerDocs r).length).map fun i =>
        { id := (innerIds r).getD i ""
          document := (innerDocs r).getD i ""
          metadata := (innerMetas r).getD i (JsonVal.obj [])
          distance := (innerDists r).getD i 0.0 }) := by
  obtain ⟨hi, hm, hd⟩ := h
  unfold formatMemories innerDocs innerIds innerMetas innerDists
  match hdoc : r.documents with
  | none => simp
  | some [] => simp
  | some (docs :: rest) =>
    obtain ⟨m0, mrest, hmeq⟩ := List.exists_cons_of_ne_nil hm
    obtain ⟨i0, irest, hieq⟩ := List.exists_cons_of_ne_nil hi
    obtain ⟨d0, drest, hdeq⟩ := List.exists_cons_of_ne_nil hd
    simp [hmeq, hieq, hdeq]

/-- Claim C2: for every well-shaped columnar store response the formatter
succeeds with a record sequence whose length equals the documents
sequence's length; at each index id defaults to the empty string,
metadata to an empty mapping and distance to 0.0 whenever the
corresponding parallel sequence is shorter than that index; absent or
empty documents yield the empty sequence (success, not an error). -/
theorem formatter_defaults (r : RawQueryResults) (h : WellShaped r) :
    ∃ l, formatMemories r = some l ∧
      l.length = (innerDocs r).length ∧
      (∀ i, ∀ hi : i < l.length, (innerIds r).length ≤ i → (l.get ⟨i, hi⟩).id = "") ∧
      (∀ i, ∀ hi : i < l.length, (innerMetas r).length ≤ i →
        (l.get ⟨i, hi⟩).metadata = JsonVal.obj []) ∧
      (∀ i, ∀ hi : i < l.length, (innerDists r).length ≤ i →
        (l.get ⟨i, hi⟩).distance = 0.0) ∧
      (innerDocs r = [] → l = []) := by
  refine ⟨_, formatMemories_eq_of_wellShaped r h, ?_, ?_, ?_, ?_, ?_⟩
  · simp
  · intro i hi hlen
    simp only [List.get_eq_getElem, List.getElem_map]
    simp only [List.length_map] at hi
    simp [List.getElem_range, List.getD, List.getElem?_eq_none hlen]
  · intro i hi hlen
    simp only [List.get_eq_getElem, List.getElem_map]
    simp only [List.length_map] at hi
    simp [List.getElem_range, List.getD, List.getElem?_eq_none hlen]
  · intro i hi hlen
    simp only [List.get_eq_getElem, List.getElem_map]
    simp only [List.length_map] at hi
    simp [List.getElem_range, List.getD, List.getElem?_eq_none hlen]
  · intro hempty
    simp [hempty]

/-- The spec's concrete defaulting example: documents d1 d2, a single id,
empty metadatas, absent distances. -/
def exampleResponse : RawQueryResults :=
  { ids := some [["i1"]]
    documents := some [["d1", "d2"]]
    metadatas := some [[]]
    distances := none }

theorem formatter_defaults_witness :
    formatMemories exampleResponse =
      some [{ id := "i1", document := "d1", metadata := JsonVal.obj [], distance := 0.0 },
            { id := "", document := "d2", metadata := JsonVal.obj [], distance := 0.0 }] ∧
    (∃ l, formatMemories exampleResponse = some l ∧
      l.length = (innerDocs exampleResponse).length ∧
      (∀ i, ∀ hi : i < l.length, (innerIds exampleResponse).length ≤ i →
        (l.get ⟨i, hi⟩).id = "") ∧
      (∀ i, ∀ hi : i < l.length, (innerMetas exampleResponse).length ≤ i →
        (l.get ⟨i, hi⟩).metadata = JsonVal.obj []) ∧
      (∀ i, ∀ hi : i < l.length, (innerDists exampleResponse).length ≤ i →
        (l.get ⟨i, hi⟩).distance = 0.0) ∧
      (innerDocs exampleResponse = [] → l = [])) := by
  constructor
  · rfl
  · exact formatter_defaults exampleResponse
      ⟨by simp [exampleResponse], by simp [exampleResponse], by simp [exampleResponse]⟩

/-- Claim C9: for a query with requested result count n, when the store
honors its limit contract (the documents sequence it returns has at most
n entries), the formatted output has length at most n and at most the
number of document entries returned; a short or empty response yields an
empty record sequence rather than an error. -/
theorem formatter_bounds (r : RawQueryResults) (n : Nat) (h : WellShaped r)
    (hn : (innerDocs r).length ≤ n) :
    ∃ l, formatMemories r = some l ∧
      l.length ≤ n ∧
      l.length ≤ (innerDocs r).length ∧
      (innerDocs r = [] → l = []) := by
  refine ⟨_, formatMemories_eq_of_wellShaped r h, by simpa using hn, by simp, ?_⟩
  intro hempty
  simp [hempty]

theorem formatter_bounds_witness :
    ∃ l, formatMemories exampleResponse = some l ∧
      l.length ≤ 5 ∧
      l.length ≤ (innerDocs exampleResponse).length ∧
      (innerDocs exampleResponse = [] → l = []) :=
  formatter_bounds exampleResponse 5
    ⟨by simp [exampleResponse], by simp [exampleResponse], by simp [exampleResponse]⟩
    (by simp [exampleResponse, innerDocs])

/-! ## Transport Codec: base64

Modelled from the spec: the Python stdlib base64.b64encode / b64decode
pair used at chroma_cli.py lines 28 and 34 (the library itself is not in
the repository). Standard RFC 4648 alphabet; the permissive decoder
discards characters outside the alphabet before decoding, requires the
padding to complete a four-character quantum, and rejects a data-character
count that is 1 more than a multiple of 4. -/

/-- The standard base64 alphabet. -/
def b64Alphabet : List Char :=
  "ABCDEFGHIJKLMNOPQRSTUVWXYZabcdefghijklmnopqrstuvwxyz0123456789+/".toList

/-- Encode one sextet as an alphabet character. -/
def encB64 (n : Nat) : Char := b64Alphabet.getD n 'A'

/-- Decode one alphabet character back to its sextet. -/
def decB64 (c : Char) : Option Nat :=
  if 'A' ≤ c ∧ c ≤ 'Z' then some (c.toNat - 65)
  else if 'a' ≤ c ∧ c ≤ 'z' then some (c.toNat - 97 + 26)
  else if '0' ≤ c ∧ c ≤ '9' then some (c.toNat - 48 + 52)
  else if c = '+' then some 62
  else if c = '/' then some 63
  else none

/-- Whether a character belongs to the base64 alphabet. -/
def isB64Char (c : Char) : Bool := (decB64 c).isSome

/-- base64.b64encode on a byte list: three bytes become four alphabet
characters; a final group of one or two bytes is padded with = signs. -/
def b64encodeBytes : List Nat → List Char
  | [] => []
  | [b1] => [encB64 (b1 / 4), encB64 (b1 % 4 * 16), '=', '=']
  | [b1, b2] => [encB64 (b1 / 4), encB64 (b1 % 4 * 16 + b2 / 16), encB64 (b2 % 16 * 4), '=']
  | b1 :: b2 :: b3 :: rest =>
    encB64 (b1 / 4) :: encB64 (b1 % 4 * 16 + b2 / 16) ::
      encB64 (b2 % 16 * 4 + b3 / 64) :: encB64 (b3 % 64) :: b64encodeBytes rest

/-- Reassemble bytes from a sextet stream: full quanta give three bytes,
a trailing pair or triple gives one or two bytes (leftover bits dropped). -/
def b64decodeQuads : List Nat → List Nat
  | s1 :: s2 :: s3 :: s4 :: rest =>
    (s1 * 4 + s2 / 16) :: (s2 % 16 * 16 + s3 / 4) :: (s3 % 4 * 64 + s4) :: b64decodeQuads rest
  | [s1, s2] => [s1 * 4 + s2 / 16]
  | [s1, s2, s3] => [s1 * 4 + s2 / 16, s2 % 16 * 16 + s3 / 4]
  | _ => []

/-- Decode every character of the data segment to its sextet; any
non-alphabet character makes the whole decode fail. -/
def decodeSextets : List Char → Option (List Nat)
  | [] => some []
  | c :: cs => do
    let s ← decB64 c
    let rest ← decodeSextets cs
    some (s :: rest)

/-- base64.b64decode: discard characters outside the alphabet, split off
the trailing padding, validate the quantum structure, then decode. none
models the binascii.Error the Python decoder raises on invalid input. -/
def b64decodeBytes (s : String) : Option (List Nat) :=
  let cs := s.data.filter (fun c => isB64Char c || c == '=')
  let data := cs.takeWhile (fun c => c != '=')
  let pads := cs.drop data.length
  if data.length % 4 == 1 then none
  else if pads.all (fun c => c == '=') && pads.length == (4 - data.length % 4) % 4 then
    (decodeSextets data).map b64decodeQuads
  else none

/-- The data characters of an encoding (the encoding minus its padding). -/
def b64dataChars : List Nat → List Char
  | [] => []
  | [b1] => [encB64 (b1 / 4), encB64 (b1 % 4 * 16)]
  | [b1, b2] => [encB64 (b1 / 4), encB64 (b1 % 4 * 16 + b2 / 16), encB64 (b2 % 16 * 4)]
  | b1 :: b2 :: b3 :: rest =>
    encB64 (b1 / 4) :: encB64 (b1 % 4 * 16 + b2 / 16) ::
      encB64 (b2 % 16 * 4 + b3 / 64) :: encB64 (b3 % 64) :: b64dataChars rest

/-- How many padding characters the encoding of a byte list carries. -/
def b64padCount : List Nat → Nat
  | [] => 0
  | [_] => 2
  | [_, _] => 1
  | _ :: _ :: _ :: rest => b64padCount rest

/-- The sextet stream of an encoding. -/
def b64sextets : List Nat → List Nat
  | [] => []
  | [b1] => [b1 / 4, b1 % 4 * 16]
  | [b1, b2] => [b1 / 4, b1 % 4 * 16 + b2 / 16, b2 % 16 * 4]
  | b1 :: b2 :: b3 :: rest =>
    b1 / 4 :: (b1 % 4 * 16 + b2 / 16) :: (b2 % 16 * 4 + b3 / 64) :: b3 % 64 :: b64sextets rest

theorem isB64Char_encB64 (n : Nat) : isB64Char (encB64 n) = true := by
  by_cases h : n < 64
  · have hb : ∀ m, m < 64 → isB64Char (encB64 m) = true := by decide
    exact hb n h
  · have hlen : b64Alphabet.length ≤ n := by
      have : b64Alphabet.length = 64 := by decide
      omega
    unfold encB64
    rw [List.getD_eq_default _ _ hlen]
    decide

theorem encB64_ne_pad (n : Nat) : encB64 n ≠ '=' := by
  by_cases h : n < 64
  · have hb : ∀ m, m < 64 → encB64 m ≠ '=' := by decide
    exact hb n h
  · have hlen : b64Alphabet.length ≤ n := by
      have : b64Alphabet.length = 64 := by decide
      omega
    unfold encB64
    rw [List.getD_eq_default _ _ hlen]
    decide

theorem decB64_encB64 (n : Nat) (h : n < 64) : decB64 (encB64 n) = some n := by
  have hb : ∀ m, m < 64 → decB64 (encB64 m) = some m := by decide
  exact hb n h

theorem b64encodeBytes_eq (bs : List Nat) :
    b64encodeBytes bs = b64dataChars bs ++ List.replicate (b64padCount bs) '=' := by
  induction bs using b64encodeBytes.induct with
  | case1 => rfl
  | case2 b1 => rfl
  | case3 b1 b2 => rfl
  | case4 b1 b2 b3 rest ih =>
    simp only [b64encodeBytes, b64dataChars, b64padCount, ih, List.cons_append]

theorem b64dataChars_mem (bs : List Nat) :
    ∀ c ∈ b64dataChars bs, isB64Char c = true ∧ c ≠ '=' := by
  induction bs using b64dataChars.induct with
  | case1 => intro c hc; cases hc
  | case2 b1 =>
    intro c hc
    simp only [b64dataChars, List.mem_cons, List.mem_singleton] at hc
    rcases hc with rfl | rfl | h
    · exact ⟨isB64Char_encB64 _, encB64_ne_pad _⟩
    · exact ⟨isB64Char_encB64 _, encB64_ne_pad _⟩
    · cases h
  | case3 b1 b2 =>
    intro c hc
    simp only [b64dataChars, List.mem_cons, List.mem_singleton] at hc
    rcases hc with rfl | rfl | rfl | h
    · exact ⟨isB64Char_encB64 _, encB64_ne_pad _⟩
    · exact ⟨isB64Char_encB64 _, encB64_ne_pad _⟩
    · exact ⟨isB64Char_encB64 _, encB64_ne_pad _⟩
    · cases h
  | case4 b1 b2 b3 rest ih =>
    intro c hc
    simp only [b64dataChars, List.mem_cons] at hc
    rcases hc with rfl | rfl | rfl | rfl | h
    · exact ⟨isB64Char_encB64 _, encB64_ne_pad _⟩
    · exact ⟨isB64Char_encB64 _, encB64_ne_pad _⟩
    · exact ⟨isB64Char_encB64 _, encB64_ne_pad _⟩
    · exact ⟨isB64Char_encB64 _, encB64_ne_pad _⟩
    · exact ih c h

theorem b64dataChars_mod (bs : List Nat) :
    (b64dataChars bs).length % 4 ≠ 1 ∧
      b64padCount bs = (4 - (b64dataChars bs).length % 4) % 4 := by
  induction bs using b64dataChars.induct with
  | case1 => exact ⟨by simp [b64dataChars], rfl⟩
  | case2 b1 =>
    constructor
    · simp [b64dataChars]
    · simp [b64dataChars, b64padCount]
  | case3 b1 b2 =>
    constructor
    · simp [b64dataChars]
    · simp [b64dataChars, b64padCount]
  | case4 b1 b2 b3 rest ih =>
    obtain ⟨ih1, ih2⟩ := ih
    constructor
    · simp only [b64dataChars, List.length_cons]
      omega
    · simp only [b64dataChars, b64padCount, List.length_cons, ih2]
      congr 1
      omega

theorem decodeSextets_b64dataChars (bs : List Nat) (h : ∀ b ∈ bs, b < 256) :
    decodeSextets (b64dataChars bs) = some (b64sextets bs) := by
  induction bs using b64dataChars.induct with
  | case1 => rfl
  | case2 b1 =>
    have h1 : b1 < 256 := h b1 (by simp)
    simp only [b64dataChars, decodeSextets, b64sextets,
      decB64_encB64 _ (show b1 / 4 < 64 by omega),
      decB64_encB64 _ (show b1 % 4 * 16 < 64 by omega)]
    rfl
  | case3 b1 b2 =>
    have h1 : b1 < 256 := h b1 (by simp)
    have h2 : b2 < 256 := h b2 (by simp)
    simp only [b64dataChars, decodeSextets, b64sextets,
      decB64_encB64 _ (show b1 / 4 < 64 by omega),
      decB64_encB64 _ (show b1 % 4 * 16 + b2 / 16 < 64 by omega),
      decB64_encB64 _ (show b2 % 16 * 4 < 64 by omega)]
    rfl
  | case4 b1 b2 b3 rest ih =>
    have h1 : b1 < 256 := h b1 (by simp)
    have h2 : b2 < 256 := h b2 (by simp)
    have h3 : b3 < 256 := h b3 (by simp)
    have ihr := ih (fun b hb => h b (by simp [hb]))
    simp only [b64dataChars, decodeSextets, b64sextets,
      decB64_encB64 _ (show b1 / 4 < 64 by omega),
      decB64_encB64 _ (show b1 % 4 * 16 + b2 / 16 < 64 by omega),
      decB64_encB64 _ (show b2 % 16 * 4 + b3 / 64 < 64 by omega),
      decB64_encB64 _ (show b3 % 64 < 64 by omega), ihr]
    rfl

theorem b64decodeQuads_b64sextets (bs : List Nat) (h : ∀ b ∈ bs, b < 256) :
    b64decodeQuads (b64sextets bs) = bs := by
  induction bs using b64sextets.induct with
  | case1 => rfl
  | case2 b1 =>
    have h1 : b1 < 256 := h b1 (by simp)
    simp only [b64sextets, b64decodeQuads]
    congr 1
    omega
  | case3 b1 b2 =>
    have h1 : b1 < 256 := h b1 (by simp)
    have h2 : b2 < 256 := h b2 (by simp)
    simp only [b64sextets, b64decodeQuads]
    congr 1
    · omega
    · congr 1
      omega
  | case4 b1 b2 b3 rest ih =>
    have h1 : b1 < 256 := h b1 (by simp)
    have h2 : b2 < 256 := h b2 (by simp)
    have h3 : b3 < 256 := h b3 (by simp)
    have ihr := ih (fun b hb => h b (by simp [hb]))
    simp only [b64sextets, b64decodeQuads, ihr]
    congr 1
    · omega
    · congr 1
      · omega
      · congr 1
        omega

theorem takeWhile_data_append (d : List Char) (k : Nat)
    (hd : ∀ c ∈ d, c ≠ '=') :
    (d ++ List.replicate k '=').takeWhile (fun c => c != '=') = d := by
  induction d with
  | nil =>
    cases k with
    | zero => rfl
    | succ k => simp [List.replicate, List.takeWhile]
  | cons c cs ih =>
    have hc : c ≠ '=' := hd c (by simp)
    have hcs : ∀ x ∈ cs, x ≠ '=' := fun x hx => hd x (by simp [hx])
    simp only [List.cons_append, List.takeWhile]
    have : (c != '=') = true := by simpa using hc
    rw [this]
    simp [ih hcs]

theorem b64_roundtrip (bs : List Nat) (h : ∀ b ∈ bs, b < 256) :
    b64decodeBytes (String.mk (b64encodeBytes bs)) = some bs := by
  have henc := b64encodeBytes_eq bs
  have hmem := b64dataChars_mem bs
  obtain ⟨hmod1, hpad⟩ := b64dataChars_mod bs
  have hfilter : (b64encodeBytes bs).filter (fun c => isB64Char c || c == '=') =
      b64encodeBytes bs := by
    rw [List.filter_eq_self]
    intro c hc
    rw [henc] at hc
    rcases List.mem_append.1 hc with hcd | hcp
    · simp [(hmem c hcd).1]
    · have hce : c = '=' := List.eq_of_mem_replicate hcp
      simp [hce]
  have htake : (b64encodeBytes bs).takeWhile (fun c => c != '=') = b64dataChars bs := by
    rw [henc]
    exact takeWhile_data_append _ _ (fun c hc => (hmem c hc).2)
  have hdrop : (b64encodeBytes bs).drop (b64dataChars bs).length =
      List.replicate (b64padCount bs) '=' := by
    rw [henc]
    exact List.drop_left _ _
  have h1 : ((b64dataChars bs).length % 4 == 1) = false := by
    simp only [Nat.beq_eq_true_eq] at *
    simpa using hmod1
  have h2 : (List.replicate (b64padCount bs) '=').all (fun c => c == '=') = true := by
    rw [List.all_eq_true]
    intro c hc
    have hce : c = '=' := List.eq_of_mem_replicate hc
    simp [hce]
  have h3 : ((List.replicate (b64padCount bs) '=').length ==
      (4 - (b64dataChars bs).length % 4) % 4) = true := by
    simp only [List.length_replicate, beq_iff_eq]
    exact hpad
  simp only [b64decodeBytes]
  rw [hfilter, htake, hdrop, h1, h2, h3]
  simp only [Bool.false_eq_true, if_false, Bool.and_self, if_true]
  rw [decodeSextets_b64dataChars bs h]
  simp [b64decodeQuads_b64sextets bs h]

/-! ## Transport Codec: UTF-8

Modelled from the spec: the str.encode('utf-8') / bytes.decode('utf-8')
pair around the base64 layer (Python's codec machinery is not in the
repository). Code points are Nat; a decode failure (UnicodeDecodeError)
is none. The decoder is strict: continuation bytes must be 0x80-0xBF,
overlong forms, surrogates and out-of-range values are rejected. -/

/-- A Unicode scalar value: in range and not a surrogate. -/
def ValidCodepoint (c : Nat) : Prop := c < 0x110000 ∧ (c < 0xD800 ∨ 0xE000 ≤ c)

instance (c : Nat) : Decidable (ValidCodepoint c) := by
  unfold ValidCodepoint
  infer_instance

/-- UTF-8 encoding of one scalar value (1 to 4 bytes). -/
def utf8EncodeChar (c : Nat) : List Nat :=
  if c < 0x80 then [c]
  else if c < 0x800 then [0xC0 + c / 64, 0x80 + c % 64]
  else if c < 0x10000 then [0xE0 + c / 4096, 0x80 + c / 64 % 64, 0x80 + c % 64]
  else [0xF0 + c / 262144, 0x80 + c / 4096 % 64, 0x80 + c / 64 % 64, 0x80 + c % 64]

/-- UTF-8 encoding of a scalar-value sequence. -/
def utf8Encode : List Nat → List Nat
  | [] => []
  | c :: cs => utf8EncodeChar c ++ utf8Encode cs

/-- Strict UTF-8 decoding of a byte sequence to scalar values. -/
def utf8Decode : List Nat → Option (List Nat)
  | [] => some []
  | b :: rest =>
    if b < 0x80 then (utf8Decode rest).map (b :: ·)
    else if b < 0xC2 then none
    else if b < 0xE0 then
      match rest with
      | b2 :: rest2 =>
        if 0x80 ≤ b2 ∧ b2 < 0xC0 then
          (utf8Decode rest2).map (((b - 0xC0) * 64 + (b2 - 0x80)) :: ·)
        else none
      | [] => none
    else if b < 0xF0 then
      match rest with
      | b2 :: b3 :: rest2 =>
        if 0x80 ≤ b2 ∧ b2 < 0xC0 ∧ 0x80 ≤ b3 ∧ b3 < 0xC0 ∧
            0x800 ≤ (b - 0xE0) * 4096 + (b2 - 0x80) * 64 + (b3 - 0x80) ∧
            ¬(0xD800 ≤ (b - 0xE0) * 4096 + (b2 - 0x80) * 64 + (b3 - 0x80) ∧
              (b - 0xE0) * 4096 + (b2 - 0x80) * 64 + (b3 - 0x80) < 0xE000) then
          (utf8Decode rest2).map (((b - 0xE0) * 4096 + (b2 - 0x80) * 64 + (b3 - 0x80)) :: ·)
        else none
      | _ => none
    else if b < 0xF5 then
      match rest with
      | b2 :: b3 :: b4 :: rest2 =>
        if 0x80 ≤ b2 ∧ b2 < 0xC0 ∧ 0x80 ≤ b3 ∧ b3 < 0xC0 ∧ 0x80 ≤ b4 ∧ b4 < 0xC0 ∧
            0x10000 ≤ (b - 0xF0) * 262144 + (b2 - 0x80) * 4096 + (b3 - 0x80) * 64 + (b4 - 0x80) ∧
            (b - 0xF0) * 262144 + (b2 - 0x80) * 4096 + (b3 - 0x80) * 64 + (b4 - 0x80) < 0x110000 then
          (utf8Decode rest2).map
            (((b - 0xF0) * 262144 + (b2 - 0x80) * 4096 + (b3 - 0x80) * 64 + (b4 - 0x80)) :: ·)
        else none
      | _ => none
    else none

theorem utf8Encode_lt (s : List Nat) (h : ∀ c ∈ s, ValidCodepoint c) :
    ∀ b ∈ utf8Encode s, b < 256 := by
  induction s with
  | nil => intro b hb; cases hb
  | cons c cs ih =>
    intro b hb
    obtain ⟨hlt, _⟩ := h c (by simp)
    have ihr := ih (fun x hx => h x (by simp [hx]))
    rcases List.mem_append.1 hb with hb1 | hb2
    · unfold utf8EncodeChar at hb1
      split at hb1
      · simp only [List.mem_singleton] at hb1; omega
      · split at hb1
        · simp only [List.mem_cons, List.mem_singleton] at hb1
          rcases hb1 with rfl | rfl | hf
          · omega
          · omega
          · cases hf
        · split at hb1
          · simp only [List.mem_cons, List.mem_singleton] at hb1
            rcases hb1 with rfl | rfl | rfl | hf
            · omega
            · omega
            · omega
            · cases hf
          · simp only [List.mem_cons, List.mem_singleton] at hb1
            rcases hb1 with rfl | rfl | rfl | rfl | hf
            · omega
            · omega
            · omega
            · omega
            · cases hf
    · exact ihr b hb2

theorem utf8Decode_cons1 (b : Nat) :
    utf8Decode [b] =
      if b < 0x80 then (utf8Decode []).map (b :: ·)
      else if b < 0xC2 then none
      else if b < 0xE0 then none
      else if b < 0xF0 then none
      else if b < 0xF5 then none
      else none := rfl

theorem utf8Decode_cons2 (b b2 : Nat) :
    utf8Decode [b, b2] =
      if b < 0x80 then (utf8Decode [b2]).map (b :: ·)
      else if b < 0xC2 then none
      else if b < 0xE0 then
        (if 0x80 ≤ b2 ∧ b2 < 0xC0 then
          (utf8Decode []).map (((b - 0xC0) * 64 + (b2 - 0x80)) :: ·)
        else none)
      else if b < 0xF0 then none
      else if b < 0xF5 then none
      else none := rfl

theorem utf8Decode_cons3 (b b2 b3 : Nat) :
    utf8Decode [b, b2, b3] =
      if b < 0x80 then (utf8Decode [b2, b3]).map (b :: ·)
      else if b < 0xC2 then none
      else if b < 0xE0 then
        (if 0x80 ≤ b2 ∧ b2 < 0xC0 then
          (utf8Decode [b3]).map (((b - 0xC0) * 64 + (b2 - 0x80)) :: ·)
        else none)
      else if b < 0xF0 then
        (if 0x80 ≤ b2 ∧ b2 < 0xC0 ∧ 0x80 ≤ b3 ∧ b3 < 0xC0 ∧
            0x800 ≤ (b - 0xE0) * 4096 + (b2 - 0x80) * 64 + (b3 - 0x80) ∧
            ¬(0xD800 ≤ (b - 0xE0) * 4096 + (b2 - 0x80) * 64 + (b3 - 0x80) ∧
              (b - 0xE0) * 4096 + (b2 - 0x80) * 64 + (b3 - 0x80) < 0xE000) then
          (utf8Decode []).map (((b - 0xE0) * 4096 + (b2 - 0x80) * 64 + (b3 - 0x80)) :: ·)
        else none)
      else if b < 0xF5 then none
      else none := rfl

theorem utf8Decode_cons4 (b b2 b3 b4 : Nat) (r : List Nat) :
    utf8Decode (b :: b2 :: b3 :: b4 :: r) =
      if b < 0x80 then (utf8Decode (b2 :: b3 :: b4 :: r)).map (b :: ·)
      else if b < 0xC2 then none
      else if b < 0xE0 then
        (if 0x80 ≤ b2 ∧ b2 < 0xC0 then
          (utf8Decode (b3 :: b4 :: r)).map (((b - 0xC0) * 64 + (b2 - 0x80)) :: ·)
        else none)
      else if b < 0xF0 then
        (if 0x80 ≤ b2 ∧ b2 < 0xC0 ∧ 0x80 ≤ b3 ∧ b3 < 0xC0 ∧
            0x800 ≤ (b - 0xE0) * 4096 + (b2 - 0x80) * 64 + (b3 - 0x80) ∧
            ¬(0xD800 ≤ (b - 0xE0) * 4096 + (b2 - 0x80) * 64 + (b3 - 0x80) ∧
              (b - 0xE0) * 4096 + (b2 - 0x80) * 64 + (b3 - 0x80) < 0xE000) then
          (utf8Decode (b4 :: r)).map
            (((b - 0xE0) * 4096 + (b2 - 0x80) * 64 + (b3 - 0x80)) :: ·)
        else none)
      else if b < 0xF5 then
        (if 0x80 ≤ b2 ∧ b2 < 0xC0 ∧ 0x80 ≤ b3 ∧ b3 < 0xC0 ∧ 0x80 ≤ b4 ∧ b4 < 0xC0 ∧
            0x10000 ≤ (b - 0xF0) * 262144 + (b2 - 0x80) * 4096 + (b3 - 0x80) * 64 + (b4 - 0x80) ∧
            (b - 0xF0) * 262144 + (b2 - 0x80) * 4096 + (b3 - 0x80) * 64 + (b4 - 0x80) <
              0x110000 then
          (utf8Decode r).map
            (((b - 0xF0) * 262144 + (b2 - 0x80) * 4096 + (b3 - 0x80) * 64 + (b4 - 0x80)) :: ·)
        else none)
      else none := rfl

theorem utf8Decode_ascii (b : Nat) (rest : List Nat) (h : b < 0x80) :
    utf8Decode (b :: rest) = (utf8Decode rest).map (b :: ·) := by
  match rest with
  | [] => rw [utf8Decode_cons1, if_pos h]
  | [b2] => rw [utf8Decode_cons2, if_pos h]
  | [b2, b3] => rw [utf8Decode_cons3, if_pos h]
  | b2 :: b3 :: b4 :: r => rw [utf8Decode_cons4, if_pos h]

theorem utf8Decode_two (b b2 : Nat) (rest : List Nat)
    (h1 : ¬ b < 0x80) (h2 : ¬ b < 0xC2) (h3 : b < 0xE0) :
    utf8Decode (b :: b2 :: rest) =
      if 0x80 ≤ b2 ∧ b2 < 0xC0 then
        (utf8Decode rest).map (((b - 0xC0) * 64 + (b2 - 0x80)) :: ·)
      else none := by
  match rest with
  | [] => rw [utf8Decode_cons2, if_neg h1, if_neg h2, if_pos h3]
  | [b3] => rw [utf8Decode_cons3, if_neg h1, if_neg h2, if_pos h3]
  | b3 :: b4 :: r => rw [utf8Decode_cons4, if_neg h1, if_neg h2, if_pos h3]

theorem utf8Decode_three (b b2 b3 : Nat) (rest : List Nat)
    (h1 : ¬ b < 0x80) (h2 : ¬ b < 0xC2) (h3 : ¬ b < 0xE0) (h4 : b < 0xF0) :
    utf8Decode (b :: b2 :: b3 :: rest) =
      if 0x80 ≤ b2 ∧ b2 < 0xC0 ∧ 0x80 ≤ b3 ∧ b3 < 0xC0 ∧
          0x800 ≤ (b - 0xE0) * 4096 + (b2 - 0x80) * 64 + (b3 - 0x80) ∧
          ¬(0xD800 ≤ (b - 0xE0) * 4096 + (b2 - 0x80) * 64 + (b3 - 0x80) ∧
            (b - 0xE0) * 4096 + (b2 - 0x80) * 64 + (b3 - 0x80) < 0xE000) then
        (utf8Decode rest).map (((b - 0xE0) * 4096 + (b2 - 0x80) * 64 + (b3 - 0x80)) :: ·)
      else none := by
  match rest with
  | [] => rw [utf8Decode_cons3, if_neg h1, if_neg h2, if_neg h3, if_pos h4]
  | b4 :: r => rw [utf8Decode_cons4, if_neg h1, if_neg h2, if_neg h3, if_pos h4]

theorem utf8Decode_four (b b2 b3 b4 : Nat) (r : List Nat)
    (h1 : ¬ b < 0x80) (h2 : ¬ b < 0xC2) (h3 : ¬ b < 0xE0) (h4 : ¬ b < 0xF0) (h5 : b < 0xF5) :
    utf8Decode (b :: b2 :: b3 :: b4 :: r) =
      if 0x80 ≤ b2 ∧ b2 < 0xC0 ∧ 0x80 ≤ b3 ∧ b3 < 0xC0 ∧ 0x80 ≤ b4 ∧ b4 < 0xC0 ∧
          0x10000 ≤ (b - 0xF0) * 262144 + (b2 - 0x80) * 4096 + (b3 - 0x80) * 64 + (b4 - 0x80) ∧
          (b - 0xF0) * 262144 + (b2 - 0x80) * 4096 + (b3 - 0x80) * 64 + (b4 - 0x80) <
            0x110000 then
        (utf8Decode r).map
          (((b - 0xF0) * 262144 + (b2 - 0x80) * 4096 + (b3 - 0x80) * 64 + (b4 - 0x80)) :: ·)
      else none := by
  rw [utf8Decode_cons4, if_neg h1, if_neg h2, if_neg h3, if_neg h4, if_pos h5]

theorem utf8_roundtrip (s : List Nat) (h : ∀ c ∈ s, ValidCodepoint c) :
    utf8Decode (utf8Encode s) = some s := by
  induction s with
  | nil => rfl
  | cons c cs ih =>
    obtain ⟨hlt, hsur⟩ := h c (by simp)
    have ihr := ih (fun x hx => h x (by simp [hx]))
    show utf8Decode (utf8EncodeChar c ++ utf8Encode cs) = some (c :: cs)
    by_cases h1 : c < 0x80
    · rw [utf8EncodeChar, if_pos h1]
      show utf8Decode (c :: utf8Encode cs) = some (c :: cs)
      rw [utf8Decode_ascii _ _ h1, ihr]
      rfl
    · by_cases h2 : c < 0x800
      · rw [utf8EncodeChar, if_neg h1, if_pos h2]
        show utf8Decode ((0xC0 + c / 64) :: (0x80 + c % 64) :: utf8Encode cs) = some (c :: cs)
        rw [utf8Decode_two _ _ _ (by omega) (by omega) (by omega), if_pos (by omega), ihr,
          Option.map_some']
        congr 2
        omega
      · by_cases h3 : c < 0x10000
        · rw [utf8EncodeChar, if_neg h1, if_neg h2, if_pos h3]
          show utf8Decode ((0xE0 + c / 4096) :: (0x80 + c / 64 % 64) :: (0x80 + c % 64) ::
            utf8Encode cs) = some (c :: cs)
          rw [utf8Decode_three _ _ _ _ (by omega) (by omega) (by omega) (by omega),
            if_pos (by omega), ihr, Option.map_some']
          congr 2
          omega
        · rw [utf8EncodeChar, if_neg h1, if_neg h2, if_neg h3]
          show utf8Decode ((0xF0 + c / 262144) :: (0x80 + c / 4096 % 64) :: (0x80 + c / 64 % 64) ::
            (0x80 + c % 64) :: utf8Encode cs) = some (c :: cs)
          rw [utf8Decode_four _ _ _ _ _ (by omega) (by omega) (by omega) (by omega) (by omega),
            if_pos (by omega), ihr, Option.map_some']
          congr 2
          omega

/-! ## Transport Codec: composed text codec

The encode side lives in the caller (the Godot runtime) per the spec's
codec contract; the decode side is chroma_cli.py's
base64.b64decode(token).decode('utf-8') at lines 28 and 34. -/

/-- Modelled from the spec: the caller-side encoder, UTF-8 encode then
base64 (the spec's encode(raw) -> token contract). -/
def encodeText (cps : List Nat) : String :=
  String.mk (b64encodeBytes (utf8Encode cps))

/-- The CLI-side decoder: base64-decode the token, then UTF-8 decode the
bytes (lines 28 and 34 of chroma_cli.py). -/
def decodeText (token : String) : Option (List Nat) :=
  (b64decodeBytes token).bind utf8Decode

/-- Claim C4: the transport codec round-trips: for every text (sequence of
Unicode scalar values, including control characters, quotes and multibyte
characters) decoding the encoded token yields exactly the original. -/
theorem codec_roundtrip (cps : List Nat) (h : ∀ c ∈ cps, ValidCodepoint c) :
    decodeText (encodeText cps) = some cps := by
  unfold decodeText encodeText
  rw [b64_roundtrip _ (utf8Encode_lt cps h)]
  simpa using utf8_roundtrip cps h

theorem codec_roundtrip_witness :
    decodeText (encodeText [10, 34, 72, 233, 8364, 128512]) =
      some [10, 34, 72, 233, 8364, 128512] :=
  codec_roundtrip [10, 34, 72, 233, 8364, 128512] (by decide)

/-! ## JSON parsing

Modelled from the spec: Python's json.loads on the compact object
notation the codec carries (the json stdlib is not in the repository).
Strings support the common escapes, numeric scalars are modelled as
integers (the CLI only ever produces integer scalars); none models
json.JSONDecodeError. -/

/-- Skip JSON whitespace. -/
def skipWs (cs : List Char) : List Char :=
  cs.dropWhile (fun c => c == ' ' || c == '\t' || c == '\n' || c == '\r')

/-- Parse the body of a JSON string after the opening quote, returning
the string and the input after the closing quote. -/
def parseStringBody : Nat → List Char → Option (String × List Char)
  | 0, _ => none
  | _ + 1, [] => none
  | fuel + 1, c :: rest =>
    if c == '"' then some ("", rest)
    else if c == '\\' then
      match rest with
      | e :: rest2 =>
        let ec := if e == 'n' then '\n' else if e == 't' then '\t'
          else if e == 'r' then '\r' else e
        match parseStringBody fuel rest2 with
        | some (s, r) => some (String.mk (ec :: s.data), r)
        | none => none
      | [] => none
    else
      match parseStringBody fuel rest with
      | some (s, r) => some (String.mk (c :: s.data), r)
      | none => none

/-- Decimal digits to a natural number. -/
def digitsToNat (ds : List Char) : Nat :=
  ds.foldl (fun acc c => acc * 10 + (c.toNat - 48)) 0

mutual

/-- Parse one JSON value, returning it and the remaining input. -/
def parseJson : Nat → List Char → Option (JsonVal × List Char)
  | 0, _ => none
  | fuel + 1, cs =>
    match skipWs cs with
    | [] => none
    | c :: rest =>
      if c == 'n' then
        match rest with
        | 'u' :: 'l' :: 'l' :: r => some (.null, r)
        | _ => none
      else if c == 't' then
        match rest with
        | 'r' :: 'u' :: 'e' :: r => some (.bool true, r)
        | _ => none
      else if c == 'f' then
        match rest with
        | 'a' :: 'l' :: 's' :: 'e' :: r => some (.bool false, r)
        | _ => none
      else if c == '"' then
        match parseStringBody fuel rest with
        | some (s, r) => some (.str s, r)
        | none => none
      else if c == '-' then
        match rest with
        | d :: _ =>
          if d.isDigit then
            let ds := rest.takeWhile (fun x => x.isDigit)
            some (.num (-(digitsToNat ds : Int)), rest.drop ds.length)
          else none
        | [] => none
      else if c.isDigit then
        let ds := (c :: rest).takeWhile (fun x => x.isDigit)
        some (.num (digitsToNat ds : Int), (c :: rest).drop ds.length)
      else if c == '[' then
        match skipWs rest with
        | ']' :: r => some (.arr [], r)
        | _ =>
          match parseArrItems fuel rest with
          | some (vs, r) => some (.arr vs, r)
          | none => none
      else if c == '{' then
        match skipWs rest with
        | '}' :: r => some (.obj [], r)
        | _ =>
          match parseObjItems fuel rest with
          | some (kvs, r) => some (.obj kvs, r)
          | none => none
      else none

/-- Parse the comma-separated items of a nonempty JSON array up to and
including the closing bracket. -/
def parseArrItems : Nat → List Char → Option (List JsonVal × List Char)
  | 0, _ => none
  | fuel + 1, cs =>
    match parseJson fuel cs with
    | some (v, r) =>
      match skipWs r with
      | ',' :: r2 =>
        match parseArrItems fuel r2 with
        | some (vs, r3) => some (v :: vs, r3)
        | none => none
      | ']' :: r2 => some ([v], r2)
      | _ => none
    | none => none

/-- Parse the members of a nonempty JSON object up to and including the
closing brace. -/
def parseObjItems : Nat → List Char → Option (List (String × JsonVal) × List Char)
  | 0, _ => none
  | fuel + 1, cs =>
    match skipWs cs with
    | '"' :: rest =>
      match parseStringBody fuel rest with
      | some (k, r) =>
        match skipWs r with
        | ':' :: r2 =>
          match parseJson fuel r2 with
          | some (v, r3) =>
            match skipWs r3 with
            | ',' :: r4 =>
              match parseObjItems fuel r4 with
              | some (kvs, r5) => some ((k, v) :: kvs, r5)
              | none => none
            | '}' :: r4 => some ([(k, v)], r4)
            | _ => none
          | none => none
        | _ => none
      | none => none
    | _ => none

end

/-- json.loads: parse one value and require only whitespace after it. -/
def jsonLoads (s : String) : Option JsonVal :=
  match parseJson (s.length + 2) s.data with
  | some (v, r) => if (skipWs r).isEmpty then some v else none
  | none => none

/-! ## add_memory decode stage

Embeds chroma_cli.py lines 25-40: decode the base64 document, then the
base64+JSON metadata, under one try clause that catches
json.JSONDecodeError and binascii.Error (printing the shared message
prefix "Invalid base64 data: ") while a UnicodeDecodeError escapes to the
top-level handler. -/

/-- The three ways the decode stage can fail, tagged by the exception the
Python libraries raise: binascii.Error (malformed token),
json.JSONDecodeError (malformed metadata), UnicodeDecodeError
(undecodable bytes, not caught by the except clause at line 38). The
carried message models str(e). -/
inductive DecodeErrKind where
  | malformedToken (msg : String)
  | malformedMetadata (msg : String)
  | undecodable (msg : String)

/-- The message str(e) of the modelled exception. -/
def DecodeErrKind.msg : DecodeErrKind → String
  | .malformedToken m => m
  | .malformedMetadata m => m
  | .undecodable m => m

/-- base64.b64decode(document_b64).decode('utf-8') (line 28). -/
def decodeDocument (b64 : String) : Except DecodeErrKind String :=
  match b64decodeBytes b64 with
  | none => .error (.malformedToken "Invalid base64-encoded string")
  | some bytes =>
    match utf8Decode bytes with
    | none => .error (.undecodable "utf-8 codec cannot decode byte")
    | some cps => .ok (String.mk (cps.map Char.ofNat))

/-- Lines 33-37: decode and parse metadata_b64 when it is truthy,
otherwise default to the empty mapping. -/
def decodeMetadata (b64 : String) : Except DecodeErrKind JsonVal :=
  if b64 == "" then .ok (JsonVal.obj [])
  else
    match b64decodeBytes b64 with
    | none => .error (.malformedToken "Invalid base64-encoded string")
    | some bytes =>
      match utf8Decode bytes with
      | none => .error (.undecodable "utf-8 codec cannot decode byte")
      | some cps =>
        match jsonLoads (String.mk (cps.map Char.ofNat)) with
        | none => .error (.malformedMetadata "Expecting value")
        | some v => .ok v

/-- Outcome of the decode stage of add_memory. -/
inductive DecodeStageResult where
  | missingDoc
  | caught (msg : String)
  | fatal (msg : String)
  | decoded (document : String) (metadata : JsonVal)

/-- The decode stage (lines 26-40): check document truthiness, decode the
document, then the metadata; binascii and json errors are caught by the
except clause, UnicodeDecodeError propagates (fatal). -/
def addMemoryDecodeStage (document_b64 metadata_b64 : String) : DecodeStageResult :=
  if document_b64 != "" then
    match decodeDocument document_b64 with
    | .error (.malformedToken m) => .caught m
    | .error (.malformedMetadata m) => .caught m
    | .error (.undecodable m) => .fatal m
    | .ok document =>
      match decodeMetadata metadata_b64 with
      | .error (.malformedToken m) => .caught m
      | .error (.malformedMetadata m) => .caught m
      | .error (.undecodable m) => .fatal m
      | .ok metadata => .decoded document metadata
  else .missingDoc

/-- The except clause at lines 38-39: both caught exception kinds are
printed through the same f-string, producing one structured error object
with the fixed prefix "Invalid base64 data: ". -/
def surfaceDecodeError (e : DecodeErrKind) : JsonVal :=
  errObj ("Invalid base64 data: " ++ e.msg)

/-! ## Memory store model

Modelled from the spec: the external Chroma store consumed through
chromadb.PersistentClient (the chromadb library is not in the
repository). Collections are named containers of records; upsert
replaces by id; get_collection and delete_collection raise when the
collection does not exist; query returns the records whose metadata
satisfies the where filter, in store order, bounded by n_results, with
opaque distances (modelled as the placeholder 0.0). -/

/-- One memory record: caller-assigned id, document text, metadata. -/
structure Record where
  id : String
  document : String
  metadata : JsonVal

/-- The store: named collections of records, in creation order. -/
abbrev ChromaStore := List (String × List Record)

/-- Find a collection by name. -/
def lookupCollection (st : ChromaStore) (name : String) : Option (List Record) :=
  match st.find? (fun p => p.1 == name) with
  | some p => some p.2
  | none => none

/-- client.get_or_create_collection: idempotent creation. -/
def getOrCreateCollection (st : ChromaStore) (name : String) : ChromaStore :=
  match lookupCollection st name with
  | some _ => st
  | none => st ++ [(name, [])]

/-- collection.upsert for a single record: replace the record sharing the
id, else append. -/
def upsertRecord (recs : List Record) (r : Record) : List Record :=
  match recs with
  | [] => [r]
  | x :: xs => if x.id == r.id then r :: xs else x :: upsertRecord xs r

/-- Apply an upsert to the named collection of the store. -/
def upsertInStore (st : ChromaStore) (name : String) (r : Record) : ChromaStore :=
  st.map (fun p => if p.1 == name then (p.1, upsertRecord p.2 r) else p)

/-- client.delete_collection: removes the collection, raising (error)
when it does not exist. -/
def deleteCollectionStore (st : ChromaStore) (name : String) : Except String ChromaStore :=
  match lookupCollection st name with
  | some _ => .ok (st.filter (fun p => p.1 != name))
  | none => .error ("Collection " ++ name ++ " does not exist.")

/-- Equality test on scalar metadata values (the shapes the CLI's where
filters compare). -/
def scalarEq (a b : JsonVal) : Bool :=
  match a, b with
  | .null, .null => true
  | .bool x, .bool y => x == y
  | .num x, .num y => x == y
  | .fnum x, .fnum y => x == y
  | .str x, .str y => x == y
  | _, _ => false

/-- One atomic where condition on a metadata mapping: either a $gte
threshold or scalar equality. -/
def evalWhereAtom (m : JsonVal) (field : String) (v : JsonVal) : Bool :=
  match v with
  | .obj [("$gte", .num t)] =>
    match m.getField field with
    | some (.num x) => t ≤ x
    | _ => false
  | other =>
    match m.getField field with
    | some x => scalarEq x other
    | none => false

/-- Where-filter evaluation, specialized to the shapes the CLI builds:
a single atom or an $and of atoms. -/
def evalWhere (m : JsonVal) (w : JsonVal) : Bool :=
  match w with
  | .obj [("$and", .arr conds)] =>
    conds.all (fun cnd =>
      match cnd with
      | .obj [(f, v)] => evalWhereAtom m f v
      | _ => false)
  | .obj [(f, v)] => evalWhereAtom m f v
  | _ => false

/-- An absent where filter (None) matches everything. -/
def evalOptWhere (w : Option JsonVal) (m : JsonVal) : Bool :=
  match w with
  | none => true
  | some f => evalWhere m f

/-- collection.query: the matching records in store order, at most n,
as a columnar response (semantic ranking is the external store's and is
opaque here; distances are the placeholder 0.0). -/
def queryCollection (recs : List Record) (n : Nat) (w : Option JsonVal) : RawQueryResults :=
  let hits := (recs.filter (fun r => evalOptWhere w r.metadata)).take n
  { ids := some [hits.map (fun r => r.id)]
    documents := some [hits.map (fun r => r.document)]
    metadatas := some [hits.map (fun r => r.metadata)]
    distances := some [hits.map (fun _ => (0.0 : Float))] }

/-- collection.get(ids=[id]): the record with that id, if present. -/
def getFromCollection (recs : List Record) (id : String) : Option Record :=
  recs.find? (fun r => r.id == id)

/-! ## Command handlers and dispatcher

Embeds the handler functions and the __main__ block of chroma_cli.py
(lines 16-187). Each print is one JSON object in the outputs list. -/

/-- How one command invocation ends: a normal return (exit 0 at the end
of main), an explicit sys.exit after printing, or a raised exception
reaching the top-level except clause. -/
inductive CmdOutcome where
  | done (outs : List JsonVal) (st : ChromaStore)
  | exited (outs : List JsonVal) (code : Nat) (st : ChromaStore)
  | raised (msg : String) (st : ChromaStore)

/-- create_collection (lines 16-19). -/
def create_collection_step (st : ChromaStore) (name : String) : CmdOutcome :=
  let st2 := getOrCreateCollection st name
  .done [JsonVal.obj [("success", JsonVal.bool true), ("name", JsonVal.str name)]] st2

/-- add_memory (lines 21-48): get_collection first (raises when the
collection is missing), then the decode stage, then the upsert. -/
def add_memory_step (st : ChromaStore)
    (collection_name memory_id document_b64 metadata_b64 : String) : CmdOutcome :=
  match lookupCollection st collection_name with
  | none => .raised ("Collection " ++ collection_name ++ " does not exist.") st
  | some _ =>
    match addMemoryDecodeStage document_b64 metadata_b64 with
    | .missingDoc => .done [errObj "Missing document"] st
    | .caught m => .done [errObj ("Invalid base64 data: " ++ m)] st
    | .fatal m => .raised m st
    | .decoded document metadata =>
      .done [JsonVal.obj [("success", JsonVal.bool true)]]
        (upsertInStore st collection_name ⟨memory_id, document, metadata⟩)

/-- The JSON shape of one formatted memory (lines 84-89). -/
def memoryToJson (m : MemoryRec) : JsonVal :=
  JsonVal.obj [("id", JsonVal.str m.id), ("document", JsonVal.str m.document),
    ("metadata", m.metadata), ("distance", JsonVal.fnum m.distance)]

/-- query_memories (lines 50-91). An IndexError inside the formatter
propagates as an exception. -/
def query_memories_step (st : ChromaStore) (collection_name : String)
    (n_results : Nat) (min_importance memory_tier : Option Int) : CmdOutcome :=
  match lookupCollection st collection_name with
  | none => .raised ("Collection " ++ collection_name ++ " does not exist.") st
  | some recs =>
    let where_filter := query_where_filter min_importance memory_tier
    let results := queryCollection recs n_results where_filter
    match formatMemories results with
    | none => .raised "list index out of range" st
    | some memories =>
      .done [JsonVal.obj [("success", JsonVal.bool true),
        ("memories", JsonVal.arr (memories.map memoryToJson))]] st

/-- get_by_id (lines 93-110). -/
def get_by_id_step (st : ChromaStore) (collection_name memory_id : String) : CmdOutcome :=
  match lookupCollection st collection_name with
  | none => .raised ("Collection " ++ collection_name ++ " does not exist.") st
  | some recs =>
    match getFromCollection recs memory_id with
    | some r =>
      .done [JsonVal.obj [("success", JsonVal.bool true),
        ("memory", JsonVal.obj [("id", JsonVal.str r.id),
          ("document", JsonVal.str r.document), ("metadata", r.metadata)])]] st
    | none =>
      .done [JsonVal.obj [("success", JsonVal.bool true), ("memory", JsonVal.null)]] st

/-- The try/except of delete_collection (lines 114-119), with the
underlying store call's outcome as input: any exception is swallowed and
reported as success with an informational note. -/
def deleteCollectionHandler (callResult : Except String ChromaStore) (name : String)
    (st : ChromaStore) : List JsonVal × ChromaStore :=
  match callResult with
  | .ok st2 =>
    ([JsonVal.obj [("success", JsonVal.bool true), ("deleted", JsonVal.str name)]], st2)
  | .error e =>
    ([JsonVal.obj [("success", JsonVal.bool true), ("deleted", JsonVal.str name),
      ("note", JsonVal.str e)]], st)

/-- delete_collection (lines 112-119). -/
def delete_collection_step (st : ChromaStore) (name : String) : CmdOutcome :=
  let r := deleteCollectionHandler (deleteCollectionStore st name) name st
  .done r.1 r.2

/-- list_collections (lines 121-128). -/
def list_collections_step (st : ChromaStore) : CmdOutcome :=
  .done [JsonVal.obj [("success", JsonVal.bool true),
    ("collections", JsonVal.arr (st.map (fun p => JsonVal.str p.1)))]] st

/-- get_count (lines 130-137): a missing collection is reported as an
error object with count 0 but a normal return (exit 0). -/
def get_count_step (st : ChromaStore) (collection_name : String) : CmdOutcome :=
  match lookupCollection st collection_name with
  | some recs =>
    .done [JsonVal.obj [("success", JsonVal.bool true),
      ("count", JsonVal.num recs.length)]] st
  | none =>
    .done [JsonVal.obj [("error", JsonVal.str
      ("Collection " ++ collection_name ++ " does not exist.")),
      ("count", JsonVal.num 0)]] st

/-- int(s): none models the ValueError on a non-numeric literal. -/
def pyInt (s : String) : Option Int := s.toInt?

/-- The command dispatch inside the try block of __main__ (lines
146-183): argument access raises IndexError when the argument list is
too short; int() raises ValueError on bad numerals; an unknown command
prints an error and exits 1. -/
def dispatchCommand (argv : List String) (st : ChromaStore) : CmdOutcome :=
  match argv.getD 1 "" with
  | "create_collection" =>
    match argv.get? 2 with
    | none => .raised "list index out of range" st
    | some name => create_collection_step st name
  | "add_memory" =>
    match argv.get? 2, argv.get? 3, argv.get? 4 with
    | some collection_name, some memory_id, some document_b64 =>
      let metadata_b64 := if argv.length > 5 then argv.getD 5 "" else ""
      add_memory_step st collection_name memory_id document_b64 metadata_b64
    | _, _, _ => .raised "list index out of range" st
  | "query" =>
    match argv.get? 2, argv.get? 3 with
    | some collection_name, some _query_text =>
      match (if argv.length > 4 then pyInt (argv.getD 4 "") else some 5) with
      | none => .raised "invalid literal for int() with base 10" st
      | some n_results =>
        match (if argv.length > 5 && argv.getD 5 "" != "-1" then
            (pyInt (argv.getD 5 "")).map some
          else some none) with
        | none => .raised "invalid literal for int() with base 10" st
        | some min_importance =>
          match (if argv.length > 6 then (pyInt (argv.getD 6 "")).map some
            else some none) with
          | none => .raised "invalid literal for int() with base 10" st
          | some memory_tier =>
            query_memories_step st collection_name n_results.toNat min_importance memory_tier
    | _, _ => .raised "list index out of range" st
  | "get_by_id" =>
    match argv.get? 2, argv.get? 3 with
    | some collection_name, some memory_id => get_by_id_step st collection_name memory_id
    | _, _ => .raised "list index out of range" st
  | "delete_collection" =>
    match argv.get? 2 with
    | none => .raised "list index out of range" st
    | some name => delete_collection_step st name
  | "list_collections" => list_collections_step st
  | "get_count" =>
    match argv.get? 2 with
    | none => .raised "list index out of range" st
    | some collection_name => get_count_step st collection_name
  | cmd => .exited [errObj ("Unknown command: " ++ cmd)] 1 st

/-- What one process invocation produces: the printed JSON objects, the
exit status and the final store state. -/
structure RunResult where
  outputs : List JsonVal
  exitCode : Nat
  store : ChromaStore

/-- The __main__ block (lines 139-187): the arity guard, the dispatch,
and the top-level except clause converting any exception into one error
object and exit status 1. -/
def runMain (argv : List String) (st : ChromaStore) : RunResult :=
  if argv.length < 2 then ⟨[errObj "No command specified"], 1, st⟩
  else
    match dispatchCommand argv st with
    | .done outs st2 => ⟨outs, 0, st2⟩
    | .exited outs code st2 => ⟨outs, code, st2⟩
    | .raised msg st2 => ⟨[errObj msg], 1, st2⟩

/-- The invariant every dispatch outcome satisfies: a normal return
printed exactly one object; an explicit exit printed exactly one error
object and exits 1; a raised exception printed nothing yet (the except
clause will print the one error object). -/
def OutcomeOK : CmdOutcome → Prop
  | .done outs _ => outs.length = 1
  | .exited outs code _ =>
    outs.length = 1 ∧ code = 1 ∧ ∀ o ∈ outs, o.hasField "error" = true
  | .raised _ _ => True

theorem create_collection_step_ok (st : ChromaStore) (name : String) :
    OutcomeOK (create_collection_step st name) := by
  simp [create_collection_step, OutcomeOK]

theorem add_memory_step_ok (st : ChromaStore) (a b c d : String) :
    OutcomeOK (add_memory_step st a b c d) := by
  unfold add_memory_step
  repeat' split
  all_goals first | trivial | simp [OutcomeOK]

theorem query_memories_step_ok (st : ChromaStore) (a : String) (n : Nat)
    (mi mt : Option Int) : OutcomeOK (query_memories_step st a n mi mt) := by
  unfold query_memories_step
  repeat' split
  all_goals first | trivial | simp [OutcomeOK]

theorem get_by_id_step_ok (st : ChromaStore) (a b : String) :
    OutcomeOK (get_by_id_step st a b) := by
  unfold get_by_id_step
  repeat' split
  all_goals first | trivial | simp [OutcomeOK]

theorem delete_collection_step_ok (st : ChromaStore) (name : String) :
    OutcomeOK (delete_collection_step st name) := by
  unfold delete_collection_step deleteCollectionHandler
  repeat' split
  all_goals first | trivial | simp [OutcomeOK]

theorem list_collections_step_ok (st : ChromaStore) :
    OutcomeOK (list_collections_step st) := by
  simp [list_collections_step, OutcomeOK]

theorem get_count_step_ok (st : ChromaStore) (a : String) :
    OutcomeOK (get_count_step st a) := by
  unfold get_count_step
  repeat' split
  all_goals first | trivial | simp [OutcomeOK]

theorem dispatchCommand_ok (argv : List String) (st : ChromaStore) :
    OutcomeOK (dispatchCommand argv st) := by
  unfold dispatchCommand
  repeat' split
  all_goals
    first
    | trivial
    | apply create_collection_step_ok
    | apply add_memory_step_ok
    | apply query_memories_step_ok
    | apply get_by_id_step_ok
    | apply delete_collection_step_ok
    | apply list_collections_step_ok
    | apply get_count_step_ok
    | simp [OutcomeOK, errObj, JsonVal.hasField, JsonVal.getField]

/-- Claim C3 (amended): every invocation emits exactly one structured
JSON object; the exit status is 0 or 1; and a non-zero exit always comes
with an error object. The original claim's converse (every failure exits
non-zero) is refuted by the counterexample below: handler-level
recoverable errors print an error object and return normally (exit 0). -/
theorem main_emits_single_structured_output (argv : List String) (st : ChromaStore) :
    (runMain argv st).outputs.length = 1 ∧
    ((runMain argv st).exitCode = 0 ∨ (runMain argv st).exitCode = 1) ∧
    ((runMain argv st).exitCode = 1 →
      ∀ o ∈ (runMain argv st).outputs, o.hasField "error" = true) := by
  unfold runMain
  by_cases h : argv.length < 2
  · simp [h, errObj, JsonVal.hasField, JsonVal.getField]
  · have hd := dispatchCommand_ok argv st
    rw [if_neg h]
    cases hdisp : dispatchCommand argv st with
    | done outs st2 =>
      rw [hdisp] at hd
      simp only [OutcomeOK] at hd
      simp [hd]
    | exited outs code st2 =>
      rw [hdisp] at hd
      obtain ⟨h1, h2, h3⟩ := hd
      subst h2
      exact ⟨h1, Or.inr rfl, fun _ => h3⟩
    | raised msg st2 =>
      simp [errObj, JsonVal.hasField, JsonVal.getField]

theorem main_emits_single_structured_output_witness :
    (runMain ["chroma_cli.py"] []).outputs.length = 1 ∧
    (runMain ["chroma_cli.py"] []).exitCode = 1 ∧
    (errObj "No command specified").hasField "error" = true := by
  refine ⟨(main_emits_single_structured_output ["chroma_cli.py"] []).1, rfl, ?_⟩
  exact (main_emits_single_structured_output ["chroma_cli.py"] []).2.2 rfl
    (errObj "No command specified") (by simp [runMain, errObj])

/-- Claim C3 counterexample: a failing add_memory invocation (missing
document) prints its structured error object but exits with status 0,
refuting "every failure terminates with a non-zero exit status". -/
theorem main_failure_with_exit_zero :
    (runMain ["chroma_cli.py", "add_memory", "c", "i", ""] [("c", [])]).outputs =
      [errObj "Missing document"] ∧
    (runMain ["chroma_cli.py", "add_memory", "c", "i", ""] [("c", [])]).exitCode = 0 :=
  ⟨rfl, rfl⟩

/-- Claim C5 (amended): a token that is not valid encoded data fails as a
malformed-token (binascii) error and a decoded token whose content fails
to parse fails as a malformed-metadata (json) error, but both are caught
by the one shared except clause and surfaced as the same structured
error, prefixed "Invalid base64 data: ", with exit status 0 — the kind
is not distinguishable from the structured output, and neither failure
crashes the process without a structured response. -/
theorem decode_errors_structured (st : ChromaStore) (name memory_id db mb : String)
    (recs : List Record) (hcol : lookupCollection st name = some recs) :
    (mb ≠ "" → b64decodeBytes mb = none →
      decodeMetadata mb = .error (.malformedToken "Invalid base64-encoded string")) ∧
    (∀ bytes cps, mb ≠ "" → b64decodeBytes mb = some bytes → utf8Decode bytes = some cps →
      jsonLoads (String.mk (cps.map Char.ofNat)) = none →
      decodeMetadata mb = .error (.malformedMetadata "Expecting value")) ∧
    (∀ m, addMemoryDecodeStage db mb = .caught m →
      runMain ["chroma_cli.py", "add_memory", name, memory_id, db, mb] st =
        ⟨[errObj ("Invalid base64 data: " ++ m)], 0, st⟩) := by
  refine ⟨?_, ?_, ?_⟩
  · intro hne hb
    unfold decodeMetadata
    rw [if_neg (by simpa using hne), hb]
  · intro bytes cps hne hb hu hj
    unfold decodeMetadata
    rw [if_neg (by simpa using hne)]
    simp only [hb, hu, hj]
  · intro m hm
    unfold runMain
    rw [if_neg (by simp),
      show dispatchCommand ["chroma_cli.py", "add_memory", name, memory_id, db, mb] st =
        add_memory_step st name memory_id db mb from rfl]
    unfold add_memory_step
    rw [hcol, hm]

theorem decode_errors_structured_witness :
    runMain ["chroma_cli.py", "add_memory", "c", "i", "aGk=", "ew=="] [("c", [])] =
      ⟨[errObj ("Invalid base64 data: " ++ "Expecting value")], 0, [("c", [])]⟩ :=
  (decode_errors_structured [("c", [])] "c" "i" "aGk=" "ew==" [] rfl).2.2
    "Expecting value" rfl

/-- Claim C5 counterexample: the decode stage collapses both exception
kinds into the same caught constructor carrying only the message, and
the except clause surfaces both kinds as the identical structured error
object — the structured error does not determine which failure occurred.
Concretely, the valid-base64 token "ew==" (which decodes to "{", invalid
JSON) and the invalid token "AAAAA" both end in the same caught shape. -/
theorem decode_errors_not_distinguishable :
    addMemoryDecodeStage "aGk=" "ew==" = .caught "Expecting value" ∧
    addMemoryDecodeStage "aGk=" "AAAAA" = .caught "Invalid base64-encoded string" ∧
    surfaceDecodeError (.malformedToken "m") = surfaceDecodeError (.malformedMetadata "m") :=
  ⟨rfl, rfl, rfl⟩

/-- Claim C6: an add_memory targeting a collection that does not exist
fails (one error object, exit status 1) and leaves the store — in
particular the set of existing collections — completely unchanged. -/
theorem add_memory_missing_collection (st : ChromaStore) (name memory_id db mb : String)
    (h : lookupCollection st name = none) :
    runMain ["chroma_cli.py", "add_memory", name, memory_id, db, mb] st =
      ⟨[errObj ("Collection " ++ name ++ " does not exist.")], 1, st⟩ := by
  unfold runMain
  rw [if_neg (by simp),
    show dispatchCommand ["chroma_cli.py", "add_memory", name, memory_id, db, mb] st =
      add_memory_step st name memory_id db mb from rfl]
  unfold add_memory_step
  rw [h]

theorem add_memory_missing_collection_witness :
    runMain ["chroma_cli.py", "add_memory", "npc1", "m1", "aGk=", ""] [] =
      ⟨[errObj ("Collection " ++ "npc1" ++ " does not exist.")], 1, []⟩ :=
  add_memory_missing_collection [] "npc1" "m1" "aGk=" "" rfl

theorem delete_collection_run (st : ChromaStore) (name : String) :
    (lookupCollection st name = none →
      runMain ["chroma_cli.py", "delete_collection", name] st =
        ⟨[JsonVal.obj [("success", JsonVal.bool true), ("deleted", JsonVal.str name),
          ("note", JsonVal.str ("Collection " ++ name ++ " does not exist."))]], 0, st⟩) ∧
    (∀ recs, lookupCollection st name = some recs →
      runMain ["chroma_cli.py", "delete_collection", name] st =
        ⟨[JsonVal.obj [("success", JsonVal.bool true), ("deleted", JsonVal.str name)]], 0,
          st.filter (fun p => p.1 != name)⟩) := by
  constructor
  · intro h
    unfold runMain
    rw [if_neg (by simp),
      show dispatchCommand ["chroma_cli.py", "delete_collection", name] st =
        delete_collection_step st name from rfl]
    unfold delete_collection_step deleteCollectionStore deleteCollectionHandler
    rw [h]
  · intro recs h
    unfold runMain
    rw [if_neg (by simp),
      show dispatchCommand ["chroma_cli.py", "delete_collection", name] st =
        delete_collection_step st name from rfl]
    unfold delete_collection_step deleteCollectionStore deleteCollectionHandler
    rw [h]

/-- Claim C7: delete_collection succeeds for every collection name and
store state with exit status 0 and a success object naming the deleted
collection, never an error field; when the collection does not exist the
underlying store error is converted into an informational note. -/
theorem delete_collection_idempotent (st : ChromaStore) (name : String) :
    (lookupCollection st name = none →
      runMain ["chroma_cli.py", "delete_collection", name] st =
        ⟨[JsonVal.obj [("success", JsonVal.bool true), ("deleted", JsonVal.str name),
          ("note", JsonVal.str ("Collection " ++ name ++ " does not exist."))]], 0, st⟩) ∧
    (∀ recs, lookupCollection st name = some recs →
      runMain ["chroma_cli.py", "delete_collection", name] st =
        ⟨[JsonVal.obj [("success", JsonVal.bool true), ("deleted", JsonVal.str name)]], 0,
          st.filter (fun p => p.1 != name)⟩) ∧
    (JsonVal.obj [("success", JsonVal.bool true), ("deleted", JsonVal.str name),
      ("note", JsonVal.str ("Collection " ++ name ++ " does not exist."))]).hasField
        "error" = false ∧
    (JsonVal.obj [("success", JsonVal.bool true),
      ("deleted", JsonVal.str name)]).hasField "error" = false := by
  refine ⟨(delete_collection_run st name).1, (delete_collection_run st name).2, ?_, ?_⟩
  · simp [JsonVal.hasField, JsonVal.getField]
  · simp [JsonVal.hasField, JsonVal.getField]

theorem delete_collection_idempotent_witness :
    runMain ["chroma_cli.py", "delete_collection", "c"] [] =
      ⟨[JsonVal.obj [("success", JsonVal.bool true), ("deleted", JsonVal.str "c"),
        ("note", JsonVal.str ("Collection " ++ "c" ++ " does not exist."))]], 0, []⟩ ∧
    runMain ["chroma_cli.py", "delete_collection", "c"] [("c", [])] =
      ⟨[JsonVal.obj [("success", JsonVal.bool true), ("deleted", JsonVal.str "c")]], 0,
        ([("c", [])] : ChromaStore).filter (fun p => p.1 != "c")⟩ :=
  ⟨(delete_collection_idempotent [] "c").1 rfl,
    (delete_collection_idempotent [("c", [])] "c").2.1 [] rfl⟩

/-- Claim C10: the delete_collection handler swallows every exception
raised by the underlying store call — whatever the message, including
connectivity faults — converting it to a success object with the name
and a note, never an error field, and the delete command always exits
with status 0. -/
theorem delete_swallows_all_store_errors (e name : String) (st : ChromaStore) :
    deleteCollectionHandler (.error e) name st =
      ([JsonVal.obj [("success", JsonVal.bool true), ("deleted", JsonVal.str name),
        ("note", JsonVal.str e)]], st) ∧
    (JsonVal.obj [("success", JsonVal.bool true), ("deleted", JsonVal.str name),
      ("note", JsonVal.str e)]).hasField "error" = false ∧
    (runMain ["chroma_cli.py", "delete_collection", name] st).exitCode = 0 := by
  refine ⟨rfl, by simp [JsonVal.hasField, JsonVal.getField], ?_⟩
  rcases delete_collection_run st name with ⟨h1, h2⟩
  cases hl : lookupCollection st name with
  | none => rw [h1 hl]
  | some recs => rw [h2 recs hl]

theorem upsertRecord_mem (xs : List Record) (r y : Record)
    (hy : y ∈ upsertRecord xs r) : y ∈ xs ∨ y = r := by
  induction xs with
  | nil =>
    simp only [upsertRecord, List.mem_singleton] at hy
    exact Or.inr hy
  | cons x xs ih =>
    simp only [upsertRecord] at hy
    split at hy
    · rcases List.mem_cons.1 hy with rfl | hmem
      · exact Or.inr rfl
      · exact Or.inl (List.mem_cons_of_mem _ hmem)
    · rcases List.mem_cons.1 hy with rfl | hmem
      · exact Or.inl (List.mem_cons_self _ _)
      · rcases ih hmem with h1 | h2
        · exact Or.inl (List.mem_cons_of_mem _ h1)
        · exact Or.inr h2

theorem upsertRecord_id_nodup (xs : List Record) (r : Record)
    (h : (xs.map Record.id).Nodup) : ((upsertRecord xs r).map Record.id).Nodup := by
  induction xs with
  | nil => simp [upsertRecord]
  | cons x xs ih =>
    simp only [List.map_cons, List.nodup_cons] at h
    obtain ⟨hx, hxs⟩ := h
    simp only [upsertRecord]
    split
    · rename_i hbeq
      have hid : x.id = r.id := by simpa using hbeq
      simp only [List.map_cons, List.nodup_cons]
      exact ⟨by rw [← hid]; exact hx, hxs⟩
    · rename_i hbeq
      have hid : x.id ≠ r.id := by simpa using hbeq
      simp only [List.map_cons, List.nodup_cons]
      refine ⟨?_, ih hxs⟩
      intro hmem
      rcases List.mem_map.1 hmem with ⟨y, hy, hyid⟩
      rcases upsertRecord_mem xs r y hy with h1 | h2
      · exact hx (List.mem_map.2 ⟨y, h1, hyid⟩)
      · subst h2
        exact hid hyid.symm

theorem upsertRecord_filter_eq (xs : List Record) (r : Record)
    (h : (xs.map Record.id).Nodup) :
    (upsertRecord xs r).filter (fun y => y.id == r.id) = [r] := by
  induction xs with
  | nil => simp [upsertRecord, List.filter]
  | cons x xs ih =>
    simp only [List.map_cons, List.nodup_cons] at h
    obtain ⟨hx, hxs⟩ := h
    simp only [upsertRecord]
    split
    · rename_i hbeq
      have hid : x.id = r.id := by simpa using hbeq
      have hnone : xs.filter (fun y => y.id == r.id) = [] := by
        rw [List.filter_eq_nil]
        intro y hy
        simp only [beq_iff_eq]
        intro hcontra
        exact hx (List.mem_map.2 ⟨y, hy, by rw [hcontra, hid]⟩)
      simp [List.filter, hnone]
    · rename_i hbeq
      have hfalse : (x.id == r.id) = false := by simpa using hbeq
      rw [List.filter_cons]
      simp only [hfalse, Bool.false_eq_true, if_false]
      exact ih hxs

/-- Claim C8: upsert enforces id uniqueness by wholesale replacement:
starting from any collection whose ids are unique (the spec's
invariant), upserting id with document A and then with document B leaves
exactly one record under that id, and that record is B's record entirely
(document B, metadata B) — no trace of A's document or metadata
remains. -/
theorem upsert_replaces_wholesale (recs : List Record)
    (h : (recs.map Record.id).Nodup) (id dA dB : String) (mA mB : JsonVal) :
    (upsertRecord (upsertRecord recs ⟨id, dA, mA⟩) ⟨id, dB, mB⟩).filter
      (fun y => y.id == id) = [⟨id, dB, mB⟩] :=
  upsertRecord_filter_eq (upsertRecord recs ⟨id, dA, mA⟩) ⟨id, dB, mB⟩
    (upsertRecord_id_nodup recs ⟨id, dA, mA⟩ h)

theorem upsert_replaces_wholesale_witness :
    (upsertRecord (upsertRecord [] ⟨"m1", "A", JsonVal.obj []⟩)
      ⟨"m1", "B", JsonVal.obj []⟩).filter (fun y => y.id == "m1") =
      [⟨"m1", "B", JsonVal.obj []⟩] :=
  upsert_replaces_wholesale [] (by simp) "m1" "A" "B" (JsonVal.obj []) (JsonVal.obj [])

/-- Claim C1: the filter builder's result depends on the number of supplied
constraints: no constraints produce no filter at all (never an empty AND);
exactly one constraint produces that atomic predicate bare, not wrapped in
an AND; both constraints produce the conjunction of the two atomic
predicates in the order importance-then-tier. -/
theorem filter_builder_arity (mi t : Int) :
    query_where_filter none none = none ∧
    query_where_filter (some mi) none = some (importanceCond mi) ∧
    query_where_filter none (some t) = some (tierCond t) ∧
    query_where_filter (some mi) (some t) =
      some (JsonVal.obj [("$and", JsonVal.arr [importanceCond mi, tierCond t])]) :=
  ⟨rfl, rfl, rfl, rfl⟩
